import Mathlib

/-!
A shallow embedding of the hook orchestration engine of the `spackle`
project-scaffolding tool (files `src/hook.rs`, `src/needs.rs`, `src/slot.rs`,
`src/lib.rs`).

Modelling decisions, all noted at the definition they concern:
* The execution context (`HashMap<String, String>` in the source) is a
  function map `String → Option String`; insertion overwrites.
* The external template engine (`Tera::one_off`) is an explicit parameter
  `render : String → Ctx → Except String String`; concrete scenarios use a
  small renderer `renderVar` in which a token starting with `$` looks up the
  rest of the token in the context (mirroring a `\x7b\x7b key \x7d\x7d`
  placeholder) and any other token renders to itself, exactly Tera's
  behaviour on placeholder-free text.
* Process execution is an oracle `exec : Hook → ExecOutcome` giving each
  spawned command's outcome; captured stdout/stderr bytes are `String`s.
* `is_satisfied` recurses through the dependency graph with no cycle guard
  in the source (a cycle diverges); the embedding adds a fuel parameter that
  is spent only on recursive calls, so any fuel at least the length of the
  longest dependency chain computes the source's value on acyclic inputs.
-/

deriving instance DecidableEq for Except

namespace Spackle

/-- Execution context: the key→value string map the Rust code carries as a
`HashMap<String, String>`. -/
def Ctx : Type := String → Option String

/-- Rust's `str::trim`: strip leading and trailing whitespace (the ASCII
whitespace fragment of Unicode `White_Space`, which covers every input the
engine's boolean guards can produce). -/
def rustTrim (s : String) : String :=
  String.mk (((s.data.dropWhile Char.isWhitespace).reverse.dropWhile Char.isWhitespace).reverse)

/-- Rust's `str::to_lowercase`, on the ASCII fragment (no character outside
ASCII lowercases to a letter of `"false"`, the only word the engine compares
a lowercased value against). -/
def rustToLower (s : String) : String :=
  String.mk (s.data.map Char.toLower)

/-- `HashMap::insert`: later insertions overwrite earlier ones. -/
def Ctx.insert (m : Ctx) (k v : String) : Ctx :=
  fun x => if x = k then some v else m x

/-- `HashMap::get` on the context. -/
def Ctx.get (m : Ctx) (k : String) : Option String := m k

/-- The empty context. -/
def Ctx.empty : Ctx := fun _ => none

/-- A context holding a single binding. -/
def Ctx.single (k v : String) : Ctx := Ctx.empty.insert k v

/-- Rust's `str::parse::<bool>`: exactly `"true"` or `"false"`, case
sensitive; anything else is a parse error (`none`). -/
def parseBool (s : String) : Option Bool :=
  if s = "true" then some true
  else if s = "false" then some false
  else none

/-- The display text of Rust's `ParseBoolError`, the payload
`evaluate_conditional` stores in `ConditionalError::NotBoolean` via
`e.to_string()` in `src/hook.rs:113`. -/
def parseBoolErrorMsg : String := "provided string was not `true` or `false`"

/-- `SlotType` from `src/slot.rs`. -/
inductive SlotType
  | Number
  | String
  | Boolean
deriving Repr, DecidableEq

/-- `Slot` from `src/slot.rs`. -/
structure Slot where
  key : String
  type_ : SlotType := SlotType.String
  needs : List String := []
  name : Option String := none
  description : Option String := none
  default : Option String := none
deriving Repr, DecidableEq

/-- `HookConfigOptional` from `src/hook.rs`. -/
structure HookConfigOptional where
  default : Bool
deriving Repr, DecidableEq

/-- `Hook` from `src/hook.rs` (`r#if` is spelled `if_`). -/
structure Hook where
  key : String
  command : List String := []
  if_ : Option String := none
  optional : Option HookConfigOptional := none
  needs : List String := []
  name : Option String := none
  description : Option String := none
deriving Repr, DecidableEq

/-- `Slot::is_enabled` (`src/slot.rs:64-69`): the slot's current value in the
data map (empty string when absent) must be non-empty, not `"0"`, and not
case-insensitively `"false"`. -/
def Slot.is_enabled (s : Slot) (data : Ctx) : Bool :=
  let value := (data.get s.key).getD ""
  !(value == "") && !(value == "0") && !(rustToLower value == "false")

/-- `Hook::is_enabled` (`src/hook.rs:80-88`): with `optional` set, the
caller's override parsed as a bool (defaulting to `false` on a parse error),
falling back to `optional.default` when no override exists; without
`optional`, always enabled. -/
def Hook.is_enabled (h : Hook) (data : Ctx) : Bool :=
  match h.optional with
  | some optional =>
    match data.get h.key with
    | some s => (parseBool s).getD false
    | none => optional.default
  | none => true

/-- The `Needy` trait objects: the combined node list mixes slots and hooks
(`src/needs.rs`). -/
inductive Needy
  | slot (s : Slot)
  | hook (h : Hook)
deriving Repr, DecidableEq

/-- `Needy::key`. -/
def Needy.key : Needy → String
  | .slot s => s.key
  | .hook h => h.key

/-- `Needy::is_enabled`, dispatching to the slot or hook implementation. -/
def Needy.isEnabled (n : Needy) (data : Ctx) : Bool :=
  match n with
  | .slot s => s.is_enabled data
  | .hook h => h.is_enabled data

/-- The `needs` list of a node. -/
def Needy.needsOf : Needy → List String
  | .slot s => s.needs
  | .hook h => h.needs

/-- `is_satisfied` (`src/needs.rs:14-37`): every key in `needs` must name a
node in `items` that is enabled and (recursively) satisfied; an unknown key
is unsatisfied.  The source recursion has no cycle guard; `fuel` bounds the
recursion depth and is spent only on recursive calls, so empty `needs` is
satisfied at any fuel, as in the source. -/
def is_satisfied : Nat → List String → List Needy → Ctx → Bool
  | 0, needs, items, data =>
    needs.all fun key =>
      match items.find? (fun it => it.key == key) with
      | some item => item.isEnabled data && false
      | none => false
  | fuel + 1, needs, items, data =>
    needs.all fun key =>
      match items.find? (fun it => it.key == key) with
      | some item => item.isEnabled data && is_satisfied fuel item.needsOf items data
      | none => false

/-- `Hook::is_satisfied` (`src/hook.rs:90-92`). -/
def Hook.is_satisfied (fuel : Nat) (h : Hook) (items : List Needy) (data : Ctx) : Bool :=
  Spackle.is_satisfied fuel h.needs items data

/-- `ConditionalError` from `src/hook.rs`.  The wrapped `tera::Error`s are
modelled by their message strings.  `InvalidContext` arises from
`Context::from_serialize`, which cannot fail on a string map; the embedding
keeps the constructor but never produces it. -/
inductive ConditionalError
  | InvalidContext (e : String)
  | InvalidTemplate (e : String)
  | NotBoolean (e : String)
deriving Repr, DecidableEq

/-- `HookError` from `src/hook.rs` (stdout/stderr bytes as strings, the
`io::Error` of a launch failure as its message). -/
inductive HookError
  | ConditionalFailed (e : ConditionalError)
  | CommandLaunchFailed (e : String)
  | CommandExited (exit_code : Int) (stdout stderr : String)
deriving Repr, DecidableEq

/-- `SkipReason` from `src/hook.rs`. -/
inductive SkipReason
  | UserDisabled
  | FalseConditional
deriving Repr, DecidableEq

/-- `HookResultKind` from `src/hook.rs`. -/
inductive HookResultKind
  | Skipped (reason : SkipReason)
  | Completed (stdout stderr : String)
  | Failed (e : HookError)
deriving Repr, DecidableEq

/-- `HookResult` from `src/hook.rs`. -/
structure HookResult where
  hook : Hook
  kind : HookResultKind
deriving Repr, DecidableEq

/-- `HookStreamResult` from `src/hook.rs`: the lifecycle events yielded by
the scheduler's stream. -/
inductive HookStreamResult
  | HookStarted (key : String)
  | HookDone (r : HookResult)
deriving Repr, DecidableEq

/-- `hook::Error` from `src/hook.rs`: the errors that abort
`run_hooks_stream` before it yields any event. -/
inductive Error
  | ErrorInitializingRuntime (e : String)
  | ErrorRenderingTemplate (h : Hook) (e : String)
  | InvalidConditional (h : Hook) (e : ConditionalError)
  | SetupFailed (h : Hook) (e : String)
deriving Repr, DecidableEq

/-- The external template engine (`Tera::one_off`): renders one template
string against a context, or fails with an error message. -/
def Render : Type := String → Ctx → Except String String

/-- `Hook::evaluate_conditional` (`src/hook.rs:96-116`): `none` guard is
true; otherwise render the guard, trim, and parse as a boolean, a parse
failure carrying the bool parser's error text. -/
def Hook.evaluate_conditional (render : Render) (h : Hook) (context : Ctx) :
    Except ConditionalError Bool :=
  match h.if_ with
  | none => .ok true
  | some conditional =>
    match render conditional context with
    | .error e => .error (.InvalidTemplate e)
    | .ok condition_str =>
      match parseBool (rustTrim condition_str) with
      | some condition => .ok condition
      | none => .error (.NotBoolean parseBoolErrorMsg)

/-- Outcome of spawning one command (`async_process` in the source): the
spawn itself may fail, or the process exits with a code (`none` when killed
by a signal) and captured stdout/stderr. -/
inductive ExecOutcome
  | launchFailed (e : String)
  | exited (code : Option Int) (stdout stderr : String)
deriving Repr, DecidableEq

/-- The process executor as an oracle from the (templated) hook to its
command's outcome. -/
def Exec : Type := Hook → ExecOutcome

/-- The enable/needs classification pass of `run_hooks_stream`
(`src/hook.rs:252-260`): enabled and satisfied hooks are queued, enabled but
unsatisfied ones are skipped as `FalseConditional`, disabled ones as
`UserDisabled`.  Declaration order is preserved in both lists. -/
def classify (fuel : Nat) (items : List Needy) (data : Ctx) :
    List Hook → List (Hook × SkipReason) × List Hook
  | [] => ([], [])
  | hook :: rest =>
    let r := classify fuel items data rest
    if hook.is_enabled data && hook.is_satisfied fuel items data then
      (r.1, hook :: r.2)
    else if hook.is_enabled data then
      ((hook, SkipReason.FalseConditional) :: r.1, r.2)
    else
      ((hook, SkipReason.UserDisabled) :: r.1, r.2)

/-- The per-token command templating of `run_hooks_stream`
(`src/hook.rs:268-275`): each argv token rendered independently, the first
failure short-circuiting (Rust's `collect::<Result<Vec<_>, _>>`). -/
def renderCommand (render : Render) (data : Ctx) : List String → Except String (List String)
  | [] => .ok []
  | arg :: rest =>
    match render arg data with
    | .error e => .error e
    | .ok s =>
      match renderCommand render data rest with
      | .error e => .error e
      | .ok rest' => .ok (s :: rest')

/-- The command-templating pass of `run_hooks_stream` (`src/hook.rs:262-281`):
every queued hook's command is rendered; a failure aborts the whole run with
`ErrorRenderingTemplate` naming the hook. -/
def templateHooks (render : Render) (data : Ctx) : List Hook → Except Error (List Hook)
  | [] => .ok []
  | hook :: rest =>
    match renderCommand render data hook.command with
    | .error e => .error (.ErrorRenderingTemplate hook e)
    | .ok command =>
      match templateHooks render data rest with
      | .error e => .error e
      | .ok rest' => .ok ({ hook with command := command } :: rest')

/-- The command-construction pass (`src/hook.rs:283-302`): with a user to
run as, `polyjuice::cmd_as_user` may fail, aborting the run with
`SetupFailed`; without one, `Command::new` always succeeds.  The user and
the setup oracle stand in for the OS-level pieces. -/
def setupCommands (runAsUser : Option String) (cmdAsUser : Hook → Except String Unit) :
    List Hook → Except Error (List Hook)
  | [] => .ok []
  | hook :: rest =>
    match runAsUser with
    | some _ =>
      match cmdAsUser hook with
      | .error e => .error (.SetupFailed hook e)
      | .ok _ =>
        match setupCommands runAsUser cmdAsUser rest with
        | .error e => .error e
        | .ok rest' => .ok (hook :: rest')
    | none =>
      match setupCommands runAsUser cmdAsUser rest with
      | .error e => .error e
      | .ok rest' => .ok (hook :: rest')

/-- The guard context built for each queued hook (`src/hook.rs:323-329`):
the slot data, then `hook_ran_<key>` set to `"false"` for every declared
hook, then overwritten to `"true"` for every hook completed so far. -/
def condContext (data : Ctx) (hookKeys ranHooks : List String) : Ctx :=
  let base := hookKeys.foldl (fun c k => c.insert ("hook_ran_" ++ k) "false") data
  ranHooks.foldl (fun c k => c.insert ("hook_ran_" ++ k) "true") base

/-- The lifecycle events for the hooks skipped by the classification pass
(`src/hook.rs:308-314`), all yielded before any queued hook runs. -/
def skipEvents : List (Hook × SkipReason) → List HookStreamResult
  | [] => []
  | (hook, reason) :: rest =>
    .HookStarted hook.key :: .HookDone ⟨hook, .Skipped reason⟩ :: skipEvents rest

/-- The main loop of the scheduler's stream (`src/hook.rs:316-388`): for each
queued hook, emit `HookStarted`, evaluate the guard against the
`hook_ran_*`-extended context (a guard error yields `Failed(ConditionalFailed)`
and the loop continues with the next hook), a false guard yields
`Skipped(FalseConditional)`, then spawn: a launch failure or non-zero exit
yields `Failed` and the loop continues; a zero exit appends the hook's key to
the completed list and yields `Completed`. -/
def runQueued (render : Render) (exec : Exec) (data : Ctx) (hookKeys : List String) :
    List String → List Hook → List HookStreamResult
  | _, [] => []
  | ranHooks, hook :: rest =>
    HookStreamResult.HookStarted hook.key ::
      (match hook.evaluate_conditional render (condContext data hookKeys ranHooks) with
       | .error e =>
         .HookDone ⟨hook, .Failed (.ConditionalFailed e)⟩ ::
           runQueued render exec data hookKeys ranHooks rest
       | .ok false =>
         .HookDone ⟨hook, .Skipped .FalseConditional⟩ ::
           runQueued render exec data hookKeys ranHooks rest
       | .ok true =>
         match exec hook with
         | .launchFailed e =>
           .HookDone ⟨hook, .Failed (.CommandLaunchFailed e)⟩ ::
             runQueued render exec data hookKeys ranHooks rest
         | .exited code stdout stderr =>
           if code = some 0 then
             .HookDone ⟨hook, .Completed stdout stderr⟩ ::
               runQueued render exec data hookKeys (ranHooks ++ [hook.key]) rest
           else
             .HookDone ⟨hook, .Failed (.CommandExited (code.getD 1) stdout stderr)⟩ ::
               runQueued render exec data hookKeys ranHooks rest)

/-- `run_hooks_stream` (`src/hook.rs:233-390`): build the combined node list
(slots first, then hooks), classify, template the queued hooks' commands,
build the commands, then the stream yields the skip events followed by the
queued hooks' events.  Errors in templating or setup abort before any event
is yielded. -/
def run_hooks_stream (fuel : Nat) (hooks : List Hook) (slots : List Slot) (data : Ctx)
    (render : Render) (exec : Exec) (runAsUser : Option String)
    (cmdAsUser : Hook → Except String Unit) : Except Error (List HookStreamResult) :=
  let items := slots.map Needy.slot ++ hooks.map Needy.hook
  let skipped := (classify fuel items data hooks).1
  let queued := (classify fuel items data hooks).2
  match templateHooks render data queued with
  | .error e => .error e
  | .ok templated =>
    match setupCommands runAsUser cmdAsUser templated with
    | .error e => .error e
    | .ok commands =>
      .ok (skipEvents skipped ++ runQueued render exec data (hooks.map Hook.key) [] commands)

/-- Projection of a stream onto the `HookResult`s carried by its `HookDone`
events, as the blocking `run_hooks` wrapper collects them. -/
def hookResults (events : List HookStreamResult) : List HookResult :=
  events.filterMap fun
    | .HookDone r => some r
    | .HookStarted _ => none

/-- `run_hooks` (`src/hook.rs:392-423`): drain the stream and keep the
`HookDone` results.  Runtime initialization is assumed to succeed. -/
def run_hooks (fuel : Nat) (hooks : List Hook) (slots : List Slot) (data : Ctx)
    (render : Render) (exec : Exec) (runAsUser : Option String)
    (cmdAsUser : Hook → Except String Unit) : Except Error (List HookResult) :=
  match run_hooks_stream fuel hooks slots data render exec runAsUser cmdAsUser with
  | .error e => .error e
  | .ok events => .ok (hookResults events)

/-- A concrete template engine for scenarios: a token starting with `$`
looks its remainder up in the context (an absent key is an undefined
variable error, as in Tera), any other token renders to itself. -/
def renderVar : Render := fun s ctx =>
  match s.data with
  | '$' :: rest =>
    match ctx.get (String.mk rest) with
    | some v => .ok v
    | none => .error ("undefined variable " ++ String.mk rest)
  | _ => .ok s

/-- A process oracle whose every command exits cleanly. -/
def execAllOk : Exec := fun _ => .exited (some 0) "" ""

/-- A setup oracle that always succeeds (unused when no user is given). -/
def cmdOk : Hook → Except String Unit := fun _ => .ok ()

/-- The reserved-key insertion shared by `Project::generate`,
`Project::run_hooks` and `Project::run_hooks_stream` (`src/lib.rs:133-135`,
`191-193`, `216-218`): clone the caller's data and insert the
engine-computed project and output names, overwriting any caller entries. -/
def withReservedKeys (data : Ctx) (projectName outputName : String) : Ctx :=
  (data.insert "_project_name" projectName).insert "_output_name" outputName

/-! ### Structural lemmas about the scheduler -/

theorem hookResults_append (a b : List HookStreamResult) :
    hookResults (a ++ b) = hookResults a ++ hookResults b :=
  List.filterMap_append a b _

theorem hookResults_skipEvents (sk : List (Hook × SkipReason)) :
    hookResults (skipEvents sk) =
      sk.map fun p => { hook := p.1, kind := HookResultKind.Skipped p.2 } := by
  induction sk with
  | nil => rfl
  | cons p rest ih =>
    cases p
    simp [skipEvents, hookResults] at ih ⊢
    exact ih

/-- One step of the queued-hook loop: whatever the guard and the process
outcome, the loop emits exactly one `HookStarted` and one `HookDone` for the
head hook — never a `UserDisabled` skip — and then continues with the tail. -/
theorem runQueued_cons (render : Render) (exec : Exec) (data : Ctx)
    (hookKeys ranHooks : List String) (hook : Hook) (rest : List Hook) :
    ∃ kind ranHooks',
      runQueued render exec data hookKeys ranHooks (hook :: rest) =
        HookStreamResult.HookStarted hook.key ::
          HookStreamResult.HookDone { hook := hook, kind := kind } ::
            runQueued render exec data hookKeys ranHooks' rest ∧
        kind ≠ HookResultKind.Skipped SkipReason.UserDisabled := by
  cases hc : hook.evaluate_conditional render (condContext data hookKeys ranHooks) with
  | error e =>
    exact ⟨.Failed (.ConditionalFailed e), ranHooks, by simp [runQueued, hc], by simp⟩
  | ok b =>
    cases b with
    | false =>
      exact ⟨.Skipped .FalseConditional, ranHooks, by simp [runQueued, hc], by simp⟩
    | true =>
      cases he : exec hook with
      | launchFailed e =>
        exact ⟨.Failed (.CommandLaunchFailed e), ranHooks, by simp [runQueued, hc, he], by simp⟩
      | exited code stdout stderr =>
        by_cases hcode : code = some 0
        · exact ⟨.Completed stdout stderr, ranHooks ++ [hook.key],
            by simp [runQueued, hc, he, hcode], by simp⟩
        · exact ⟨.Failed (.CommandExited (code.getD 1) stdout stderr), ranHooks,
            by simp [runQueued, hc, he, hcode], by simp⟩

/-- The queued-hook loop emits the hooks' results in queue order, one result
per queued hook, whatever the guards and process outcomes do. -/
theorem runQueued_result_keys (render : Render) (exec : Exec) (data : Ctx)
    (hookKeys : List String) (cmds : List Hook) :
    ∀ ranHooks, (hookResults (runQueued render exec data hookKeys ranHooks cmds)).map
      (fun r => r.hook.key) = cmds.map Hook.key := by
  induction cmds with
  | nil => intro ranHooks; rfl
  | cons hook rest ih =>
    intro ranHooks
    obtain ⟨kind, ranHooks', heq, -⟩ :=
      runQueued_cons render exec data hookKeys ranHooks hook rest
    rw [heq]
    simp [hookResults] at ih ⊢
    exact ih ranHooks'

/-- The queued-hook loop never reports a `UserDisabled` skip. -/
theorem runQueued_no_user_disabled (render : Render) (exec : Exec) (data : Ctx)
    (hookKeys : List String) (cmds : List Hook) :
    ∀ ranHooks r, HookStreamResult.HookDone r ∈ runQueued render exec data hookKeys ranHooks cmds →
      r.kind ≠ HookResultKind.Skipped SkipReason.UserDisabled := by
  induction cmds with
  | nil => intro ranHooks r hr; simp [runQueued] at hr
  | cons hook rest ih =>
    intro ranHooks r hr
    obtain ⟨kind, ranHooks', heq, hkind⟩ :=
      runQueued_cons render exec data hookKeys ranHooks hook rest
    rw [heq] at hr
    simp at hr
    rcases hr with hr | hr
    · rw [hr]; exact hkind
    · exact ih ranHooks' r hr

/-- The classification pass queues exactly the enabled-and-satisfied hooks,
in declaration order. -/
theorem classify_queued (fuel : Nat) (items : List Needy) (data : Ctx) (hooks : List Hook) :
    (classify fuel items data hooks).2 =
      hooks.filter fun h => h.is_enabled data && h.is_satisfied fuel items data := by
  induction hooks with
  | nil => rfl
  | cons hook rest ih =>
    cases he : hook.is_enabled data <;> cases hs : hook.is_satisfied fuel items data <;>
      simp [classify, he, hs, List.filter_cons, ih]

/-- The classification pass skips exactly the hooks that are not both
enabled and satisfied, in declaration order. -/
theorem classify_skipped_hooks (fuel : Nat) (items : List Needy) (data : Ctx)
    (hooks : List Hook) :
    (classify fuel items data hooks).1.map Prod.fst =
      hooks.filter fun h => !(h.is_enabled data && h.is_satisfied fuel items data) := by
  induction hooks with
  | nil => rfl
  | cons hook rest ih =>
    cases he : hook.is_enabled data <;> cases hs : hook.is_satisfied fuel items data <;>
      simp [classify, he, hs, List.filter_cons, ih]

/-- Command templating keeps every hook's key (only `command` is replaced). -/
theorem templateHooks_ok_keys (render : Render) (data : Ctx) (qs ts : List Hook)
    (h : templateHooks render data qs = .ok ts) : ts.map Hook.key = qs.map Hook.key := by
  induction qs generalizing ts with
  | nil =>
    simp [templateHooks] at h
    simp [← h]
  | cons hook rest ih =>
    simp only [templateHooks] at h
    cases hr : renderCommand render data hook.command with
    | error e => rw [hr] at h; exact absurd h (by simp)
    | ok cmd =>
      rw [hr] at h
      cases hrest : templateHooks render data rest with
      | error e => rw [hrest] at h; exact absurd h (by simp)
      | ok rest' =>
        rw [hrest] at h
        simp at h
        rw [← h]
        simp [ih rest' hrest]

/-- With no run-as user, command setup keeps the hook list unchanged. -/
theorem setupCommands_none (cmdAsUser : Hook → Except String Unit) (hs : List Hook) :
    setupCommands none cmdAsUser hs = .ok hs := by
  induction hs with
  | nil => rfl
  | cons hook rest ih => simp [setupCommands, ih]

/-- The two classification classes partition the declared hooks. -/
theorem length_filter_partition {α : Type _} (p : α → Bool) (l : List α) :
    (l.filter fun a => !(p a)).length + (l.filter p).length = l.length := by
  induction l with
  | nil => rfl
  | cons a rest ih =>
    cases hp : p a <;> simp [List.filter_cons, hp] <;> omega

/-- A successful `run_hooks_stream` run decomposes into the phase-1 skip
events followed by the queued-hook loop over the templated queue. -/
theorem run_hooks_stream_ok_decomp (fuel : Nat) (hooks : List Hook) (slots : List Slot)
    (data : Ctx) (render : Render) (exec : Exec) (cmdAsUser : Hook → Except String Unit)
    (events : List HookStreamResult)
    (h : run_hooks_stream fuel hooks slots data render exec none cmdAsUser = .ok events) :
    ∃ templated,
      templateHooks render data
        (classify fuel (slots.map Needy.slot ++ hooks.map Needy.hook) data hooks).2 =
          .ok templated ∧
      events =
        skipEvents (classify fuel (slots.map Needy.slot ++ hooks.map Needy.hook) data hooks).1 ++
          runQueued render exec data (hooks.map Hook.key) [] templated := by
  unfold run_hooks_stream at h
  simp only [setupCommands_none] at h
  cases ht : templateHooks render data
      (classify fuel (slots.map Needy.slot ++ hooks.map Needy.hook) data hooks).2 with
  | error e => rw [ht] at h; exact absurd h (by simp)
  | ok templated =>
    rw [ht] at h
    simp at h
    exact ⟨templated, rfl, h.symm⟩

/-! ### The claims -/

def hookC1a : Hook := { key := "a", command := ["false"] }

def hookC1b : Hook := { key := "b", command := ["true"] }

/-- A process oracle under which hook `a`'s command exits with status 1 and
every other command exits cleanly. -/
def execC1 : Exec := fun h =>
  if h.key = "a" then .exited (some 1) "" "" else .exited (some 0) "out" ""

/-- C1, counterexample: hook `a` fails with `CommandExited 1`, yet hook `b`
is still started afterwards, its process runs, and a further `HookResult`
(`Completed`) is produced after the first `Failed` result — so a `Failed`
outcome does not abort the remaining hook sequence. -/
theorem C1_counterexample :
    run_hooks_stream 1 [hookC1a, hookC1b] [] Ctx.empty renderVar execC1 none cmdOk =
      .ok [.HookStarted "a",
           .HookDone { hook := hookC1a, kind := .Failed (.CommandExited 1 "" "") },
           .HookStarted "b",
           .HookDone { hook := hookC1b, kind := .Completed "out" "" }] := by
  decide

/-- C1, amended: a `Failed` hook outcome — guard-evaluation error, spawn
failure or non-zero exit — does not abort the remaining hook sequence: the
scheduler continues with the next hook, and whenever the run reaches the
stream at all (command templating succeeded) every declared hook yields
exactly one `HookResult`, whatever the process outcomes are.  Only the
pre-stream command-templating error aborts, and then no result is produced
at all. -/
theorem C1_failures_do_not_abort (fuel : Nat) (hooks : List Hook) (slots : List Slot)
    (data : Ctx) (render : Render) (exec : Exec) (cmdAsUser : Hook → Except String Unit)
    (events : List HookStreamResult)
    (h : run_hooks_stream fuel hooks slots data render exec none cmdAsUser = .ok events) :
    (hookResults events).length = hooks.length := by
  obtain ⟨templated, ht, hev⟩ :=
    run_hooks_stream_ok_decomp fuel hooks slots data render exec cmdAsUser events h
  subst hev
  rw [hookResults_append, List.length_append, hookResults_skipEvents]
  have hq : templated.length =
      ((classify fuel (slots.map Needy.slot ++ hooks.map Needy.hook) data hooks).2).length := by
    have := templateHooks_ok_keys render data _ templated ht
    calc templated.length = (templated.map Hook.key).length := by simp
    _ = _ := by rw [this]; simp
  have hrq := runQueued_result_keys render exec data (hooks.map Hook.key) templated []
  have hrql : (hookResults (runQueued render exec data (hooks.map Hook.key) [] templated)).length
      = templated.length := by
    calc (hookResults (runQueued render exec data (hooks.map Hook.key) [] templated)).length
        = ((hookResults (runQueued render exec data (hooks.map Hook.key) [] templated)).map
            (fun r => r.hook.key)).length := by simp
    _ = (templated.map Hook.key).length := by rw [hrq]
    _ = templated.length := by simp
  have hsk : ((classify fuel (slots.map Needy.slot ++ hooks.map Needy.hook) data hooks).1).length
      = (hooks.filter fun h =>
          !(h.is_enabled data && h.is_satisfied fuel
            (slots.map Needy.slot ++ hooks.map Needy.hook) data)).length := by
    have := classify_skipped_hooks fuel (slots.map Needy.slot ++ hooks.map Needy.hook) data hooks
    calc ((classify fuel (slots.map Needy.slot ++ hooks.map Needy.hook) data hooks).1).length
        = (((classify fuel (slots.map Needy.slot ++ hooks.map Needy.hook) data hooks).1).map
            Prod.fst).length := by simp
    _ = _ := by rw [this]
  rw [List.length_map, hrql, hq, hsk, classify_queued]
  exact length_filter_partition _ hooks

/-- C1, witness: the amended theorem applied to the two-hook counterexample
run, whose first hook fails. -/
theorem C1_witness :
    (hookResults [.HookStarted "a",
      .HookDone { hook := hookC1a, kind := .Failed (.CommandExited 1 "" "") },
      .HookStarted "b",
      .HookDone { hook := hookC1b, kind := .Completed "out" "" }]).length =
      [hookC1a, hookC1b].length :=
  C1_failures_do_not_abort 1 [hookC1a, hookC1b] [] Ctx.empty renderVar execC1 cmdOk _
    (by decide)

/-- A successful command rendering preserves the argv's arity. -/
theorem renderCommand_ok_length (render : Render) (data : Ctx) :
    ∀ (cmd out : List String), renderCommand render data cmd = .ok out →
      out.length = cmd.length := by
  intro cmd
  induction cmd with
  | nil => intro out h; simp [renderCommand] at h; simp [← h]
  | cons arg rest ih =>
    intro out h
    simp only [renderCommand] at h
    cases hr : render arg data with
    | error e => rw [hr] at h; exact absurd h (by simp)
    | ok s =>
      rw [hr] at h
      cases hrest : renderCommand render data rest with
      | error e => rw [hrest] at h; exact absurd h (by simp)
      | ok rest' =>
        rw [hrest] at h
        simp at h
        rw [← h]
        simp [ih rest' hrest]

/-- Each token of a successfully rendered command is the independent
rendering of the corresponding input token. -/
theorem renderCommand_ok_get (render : Render) (data : Ctx) :
    ∀ (cmd out : List String), renderCommand render data cmd = .ok out →
      ∀ i s t, cmd.get? i = some s → out.get? i = some t → render s data = .ok t := by
  intro cmd
  induction cmd with
  | nil => intro out h i s t hs; simp at hs
  | cons arg rest ih =>
    intro out h i s t hs ht
    simp only [renderCommand] at h
    cases hr : render arg data with
    | error e => rw [hr] at h; exact absurd h (by simp)
    | ok v =>
      rw [hr] at h
      cases hrest : renderCommand render data rest with
      | error e => rw [hrest] at h; exact absurd h (by simp)
      | ok rest' =>
        rw [hrest] at h
        simp at h
        subst h
        cases i with
        | zero =>
          simp at hs ht
          rw [← hs, ← ht] at *
          exact hr
        | succ i =>
          simp at hs ht
          exact ih rest' hrest i s t (by simpa using hs) (by simpa using ht)

/-- A failed command rendering fails at the first failing token: the error
is that token's render error and every earlier token renders successfully. -/
theorem renderCommand_error_first (render : Render) (data : Ctx) :
    ∀ (cmd : List String) (e : String), renderCommand render data cmd = .error e →
      ∃ i s, cmd.get? i = some s ∧ render s data = .error e ∧
        ∀ j t, j < i → cmd.get? j = some t → ∃ u, render t data = .ok u := by
  intro cmd
  induction cmd with
  | nil => intro e h; simp [renderCommand] at h
  | cons arg rest ih =>
    intro e h
    simp only [renderCommand] at h
    cases hr : render arg data with
    | error e' =>
      rw [hr] at h
      simp at h
      subst h
      exact ⟨0, arg, by simp, hr, fun j t hj _ => absurd hj (by omega)⟩
    | ok s =>
      rw [hr] at h
      cases hrest : renderCommand render data rest with
      | error e' =>
        rw [hrest] at h
        simp at h
        subst h
        obtain ⟨i, s', hi, herr, hearlier⟩ := ih e' hrest
        refine ⟨i + 1, s', by simpa using hi, herr, ?_⟩
        intro j t hj hjt
        cases j with
        | zero =>
          simp at hjt
          subst hjt
          exact ⟨s, hr⟩
        | succ j =>
          simp at hjt
          exact hearlier j t (by omega) (by simpa using hjt)
      | ok rest' => rw [hrest] at h; exact absurd h (by simp)

/-- When every hook before `hook` in the queue renders successfully and one
of `hook`'s tokens fails to render, the templating pass aborts with
`ErrorRenderingTemplate` naming `hook` and carrying the token's error. -/
theorem templateHooks_append_error (render : Render) (data : Ctx) :
    ∀ (pre : List Hook) (hook : Hook) (post : List Hook) (e : String),
      (∀ g ∈ pre, ∃ out, renderCommand render data g.command = .ok out) →
      renderCommand render data hook.command = .error e →
      templateHooks render data (pre ++ hook :: post) =
        .error (.ErrorRenderingTemplate hook e) := by
  intro pre
  induction pre with
  | nil =>
    intro hook post e _ herr
    simp only [List.nil_append, templateHooks]
    rw [herr]
  | cons g pre' ih =>
    intro hook post e hpre herr
    obtain ⟨out, hg⟩ := hpre g (by simp)
    have hrest : templateHooks render data (pre'.append (hook :: post)) =
        .error (.ErrorRenderingTemplate hook e) :=
      ih hook post e (fun g' hg' => hpre g' (by simp [hg'])) herr
    simp only [List.cons_append, templateHooks, hg]
    rw [hrest]

/-- A templating error aborts `run_hooks_stream` with that error: no event
(hence no `HookResult` and no process) is produced at all. -/
theorem run_hooks_stream_template_error (fuel : Nat) (hooks : List Hook) (slots : List Slot)
    (data : Ctx) (render : Render) (exec : Exec) (cmdAsUser : Hook → Except String Unit)
    (err : Error)
    (h : templateHooks render data
      (classify fuel (slots.map Needy.slot ++ hooks.map Needy.hook) data hooks).2 = .error err) :
    run_hooks_stream fuel hooks slots data render exec none cmdAsUser = .error err := by
  unfold run_hooks_stream
  simp only [setupCommands_none]
  rw [h]

/-- C2, amended: a hook command token that fails to render aborts the whole
run before any process is spawned, with `Err(ErrorRenderingTemplate)` naming
the failing hook and the template error — not with a `HookDone(Failed)`
event: the aborted run yields no event at all.  On success the rendered argv
has exactly the input's arity, each token rendered independently, and a
failure happens at the first failing token. -/
theorem C2_token_render_semantics :
    (∀ (render : Render) (data : Ctx) (cmd out : List String),
        renderCommand render data cmd = .ok out → out.length = cmd.length) ∧
    (∀ (render : Render) (data : Ctx) (cmd out : List String),
        renderCommand render data cmd = .ok out →
        ∀ i s t, cmd.get? i = some s → out.get? i = some t → render s data = .ok t) ∧
    (∀ (render : Render) (data : Ctx) (cmd : List String) (e : String),
        renderCommand render data cmd = .error e →
        ∃ i s, cmd.get? i = some s ∧ render s data = .error e ∧
          ∀ j t, j < i → cmd.get? j = some t → ∃ u, render t data = .ok u) ∧
    (∀ (render : Render) (data : Ctx) (pre : List Hook) (hook : Hook) (post : List Hook)
        (e : String),
        (∀ g ∈ pre, ∃ out, renderCommand render data g.command = .ok out) →
        renderCommand render data hook.command = .error e →
        templateHooks render data (pre ++ hook :: post) =
          .error (.ErrorRenderingTemplate hook e)) ∧
    (∀ (fuel : Nat) (hooks : List Hook) (slots : List Slot) (data : Ctx) (render : Render)
        (exec : Exec) (cmdAsUser : Hook → Except String Unit) (err : Error),
        templateHooks render data
          (classify fuel (slots.map Needy.slot ++ hooks.map Needy.hook) data hooks).2 =
            .error err →
        run_hooks_stream fuel hooks slots data render exec none cmdAsUser = .error err) :=
  ⟨fun render data => renderCommand_ok_length render data,
   fun render data => renderCommand_ok_get render data,
   fun render data => renderCommand_error_first render data,
   fun render data => templateHooks_append_error render data,
   fun fuel hooks slots data render exec cmdAsUser err h =>
     run_hooks_stream_template_error fuel hooks slots data render exec cmdAsUser err h⟩

def hookC2 : Hook := { key := "h", command := ["$missing"] }

/-- C2, counterexample: a hook whose command token references an undefined
context key does not produce a `HookDone(Failed)` outcome attached to the
hook — the run aborts with `Err(ErrorRenderingTemplate)` and yields no
events (and hence no `HookResult`) at all. -/
theorem C2_counterexample :
    run_hooks_stream 1 [hookC2] [] Ctx.empty renderVar execAllOk none cmdOk =
      .error (.ErrorRenderingTemplate hookC2 "undefined variable missing") := by
  decide

/-- C2, witness: the amended theorem's abort clause applied to the
concrete one-hook run whose command token fails to render. -/
theorem C2_witness :
    run_hooks_stream 2 [hookC2] [] Ctx.empty renderVar execAllOk none cmdOk =
      .error (.ErrorRenderingTemplate hookC2 "undefined variable missing") :=
  C2_token_render_semantics.2.2.2.2 2 [hookC2] [] Ctx.empty renderVar execAllOk cmdOk
    (.ErrorRenderingTemplate hookC2 "undefined variable missing") (by decide)

def hookC3a : Hook := { key := "p", command := ["c"] }

def hookC3b : Hook := { key := "q", command := ["c"], optional := some { default := false } }

/-- C3, counterexample: with declaration order `[p, q]` where `p` runs and
`q` is disabled, `q`'s result is emitted first — the earlier-declared hook
`p` has its result emitted after the later-declared `q`'s. -/
theorem C3_counterexample :
    run_hooks 1 [hookC3a, hookC3b] [] Ctx.empty renderVar execAllOk none cmdOk =
      .ok [{ hook := hookC3b, kind := .Skipped .UserDisabled },
           { hook := hookC3a, kind := .Completed "" "" }] ∧
    hookC3a.key ≠ hookC3b.key := by
  decide

/-- C3, amended: exactly one `HookResult` is created per declared hook (in
the absence of an aborting error), but the emission order is not declaration
order: all hooks skipped by the enable/needs classification are emitted
first, in declaration order, followed by the queued hooks, in declaration
order — so an earlier-declared queued hook's result can follow a
later-declared skipped hook's result. -/
theorem C3_one_result_per_hook_grouped_order (fuel : Nat) (hooks : List Hook)
    (slots : List Slot) (data : Ctx) (render : Render) (exec : Exec)
    (cmdAsUser : Hook → Except String Unit) (events : List HookStreamResult)
    (h : run_hooks_stream fuel hooks slots data render exec none cmdAsUser = .ok events) :
    (hookResults events).map (fun r => r.hook.key) =
      ((hooks.filter fun g => !(g.is_enabled data &&
          g.is_satisfied fuel (slots.map Needy.slot ++ hooks.map Needy.hook) data)).map
        Hook.key) ++
      ((hooks.filter fun g => g.is_enabled data &&
          g.is_satisfied fuel (slots.map Needy.slot ++ hooks.map Needy.hook) data).map
        Hook.key) := by
  obtain ⟨templated, ht, hev⟩ :=
    run_hooks_stream_ok_decomp fuel hooks slots data render exec cmdAsUser events h
  subst hev
  rw [hookResults_append, List.map_append, hookResults_skipEvents]
  have hskip : (((classify fuel (slots.map Needy.slot ++ hooks.map Needy.hook) data hooks).1).map
      (fun p => ({ hook := p.1, kind := HookResultKind.Skipped p.2 } : HookResult))).map
        (fun r => r.hook.key) =
      (hooks.filter fun g => !(g.is_enabled data &&
        g.is_satisfied fuel (slots.map Needy.slot ++ hooks.map Needy.hook) data)).map
          Hook.key := by
    rw [← classify_skipped_hooks fuel (slots.map Needy.slot ++ hooks.map Needy.hook) data hooks]
    simp [Function.comp]
  have hqueued : (hookResults (runQueued render exec data (hooks.map Hook.key) [] templated)).map
      (fun r => r.hook.key) =
      (hooks.filter fun g => g.is_enabled data &&
        g.is_satisfied fuel (slots.map Needy.slot ++ hooks.map Needy.hook) data).map
          Hook.key := by
    rw [runQueued_result_keys, templateHooks_ok_keys render data _ templated ht,
      classify_queued]
  rw [hskip, hqueued]

/-- C3, witness: the amended theorem applied to the two-hook run whose first
declared hook is queued and second is disabled. -/
theorem C3_witness :
    (hookResults [.HookStarted "q",
        .HookDone { hook := hookC3b, kind := .Skipped .UserDisabled },
        .HookStarted "p",
        .HookDone { hook := hookC3a, kind := .Completed "" "" }]).map
      (fun r => r.hook.key) =
      (([hookC3a, hookC3b].filter fun g => !(g.is_enabled Ctx.empty &&
          g.is_satisfied 1 (List.map Needy.slot [] ++
            List.map Needy.hook [hookC3a, hookC3b]) Ctx.empty)).map Hook.key) ++
      (([hookC3a, hookC3b].filter fun g => g.is_enabled Ctx.empty &&
          g.is_satisfied 1 (List.map Needy.slot [] ++
            List.map Needy.hook [hookC3a, hookC3b]) Ctx.empty).map Hook.key) :=
  C3_one_result_per_hook_grouped_order 1 [hookC3a, hookC3b] [] Ctx.empty renderVar execAllOk
    cmdOk _ (by decide)

/-- `Ctx.insert` followed by `Ctx.get`: the inserted key wins, others fall
through. -/
theorem Ctx.get_insert (c : Ctx) (k v x : String) :
    (c.insert k v).get x = if x = k then some v else c.get x := rfl

/-- Looking a key up after a fold of insertions of the constant value `v`
over keys `f k`, `k ∈ ks`: the inserted value if some `f k` matches, the
original context otherwise. -/
theorem foldl_insert_get (v : String) (f : String → String) :
    ∀ (ks : List String) (c : Ctx) (x : String),
      (ks.foldl (fun c k => c.insert (f k) v) c).get x =
        if ks.any (fun k => f k == x) then some v else c.get x := by
  intro ks
  induction ks with
  | nil => intro c x; simp
  | cons k rest ih =>
    intro c x
    simp only [List.foldl_cons, List.any_cons]
    rw [ih]
    by_cases hr : rest.any (fun k => f k == x) = true
    · simp [hr]
    · simp only [hr, Bool.or_false]
      by_cases hk : f k = x
      · subst hk
        simp [Ctx.get_insert]
      · have hx : ¬(x = f k) := fun hx => hk hx.symm
        simp [Ctx.get_insert, hk, hx]

/-- Appending to a fixed string on the left is injective. -/
theorem string_append_cancel_left (a b c : String) (h : a ++ b = a ++ c) : b = c := by
  have hd : a.data ++ b.data = a.data ++ c.data := by
    have := congrArg String.data h
    simpa using this
  have hbc := List.append_cancel_left hd
  cases b
  cases c
  exact congrArg String.mk hbc

def hookC4h1 : Hook := { key := "h1", command := ["c1"] }

def hookC4h4 : Hook := { key := "h4", command := ["c4"], if_ := some "$hook_ran_h1" }

/-- A process oracle under which `h1`'s command exits with status 1 and
every other command exits cleanly. -/
def execC4 : Exec := fun h =>
  if h.key = "h1" then .exited (some 1) "" "" else .exited (some 0) "" ""

/-- C4: the guard context binds `hook_ran_<key>` for every declared hook —
`"true"` exactly when that hook completed earlier in the run, `"false"`
otherwise; consequently, with a guard reading `hook_ran_h1`, hook `h4`
completes when `h1` is declared earlier and completed, is skipped when
declared before `h1`, and is skipped when `h1` is declared earlier but
failed. -/
theorem C4_hook_ran_flags :
    (∀ (data : Ctx) (hookKeys ranHooks : List String) (k : String), k ∈ hookKeys →
        (condContext data hookKeys ranHooks).get ("hook_ran_" ++ k) =
          some (if k ∈ ranHooks then "true" else "false")) ∧
    (run_hooks_stream 1 [hookC4h1, hookC4h4] [] Ctx.empty renderVar execAllOk none cmdOk =
      .ok [.HookStarted "h1", .HookDone { hook := hookC4h1, kind := .Completed "" "" },
           .HookStarted "h4", .HookDone { hook := hookC4h4, kind := .Completed "" "" }]) ∧
    (run_hooks_stream 1 [hookC4h4, hookC4h1] [] Ctx.empty renderVar execAllOk none cmdOk =
      .ok [.HookStarted "h4",
           .HookDone { hook := hookC4h4, kind := .Skipped .FalseConditional },
           .HookStarted "h1", .HookDone { hook := hookC4h1, kind := .Completed "" "" }]) ∧
    (run_hooks_stream 1 [hookC4h1, hookC4h4] [] Ctx.empty renderVar execC4 none cmdOk =
      .ok [.HookStarted "h1",
           .HookDone { hook := hookC4h1, kind := .Failed (.CommandExited 1 "" "") },
           .HookStarted "h4",
           .HookDone { hook := hookC4h4, kind := .Skipped .FalseConditional }]) := by
  refine ⟨?_, by decide, by decide, by decide⟩
  intro data hookKeys ranHooks k hk
  have key_inj : ∀ r : String, (("hook_ran_" ++ r) == ("hook_ran_" ++ k)) = true ↔ r = k := by
    intro r
    constructor
    · intro hbeq
      exact string_append_cancel_left "hook_ran_" r k (by simpa using hbeq)
    · intro hrk
      subst hrk
      simp
  unfold condContext
  rw [foldl_insert_get "true" (fun r => "hook_ran_" ++ r) ranHooks]
  by_cases hran : k ∈ ranHooks
  · have hany : (ranHooks.any fun r => ("hook_ran_" ++ r) == ("hook_ran_" ++ k)) = true := by
      rw [List.any_eq_true]
      exact ⟨k, hran, by simp⟩
    rw [hany]
    simp [hran]
  · have hany : (ranHooks.any fun r => ("hook_ran_" ++ r) == ("hook_ran_" ++ k)) = false := by
      rw [Bool.eq_false_iff]
      intro hcontra
      rw [List.any_eq_true] at hcontra
      obtain ⟨r, hrmem, hrbeq⟩ := hcontra
      exact hran ((key_inj r).mp hrbeq ▸ hrmem)
    rw [hany]
    rw [foldl_insert_get "false" (fun r => "hook_ran_" ++ r) hookKeys]
    have hany2 : (hookKeys.any fun r => ("hook_ran_" ++ r) == ("hook_ran_" ++ k)) = true := by
      rw [List.any_eq_true]
      exact ⟨k, hk, by simp⟩
    rw [hany2]
    simp [hran]

/-- C4, witness: the flag lemma applied to a concrete context with hooks
`h1, h4` of which `h1` has completed. -/
theorem C4_witness :
    (condContext Ctx.empty ["h1", "h4"] ["h1"]).get ("hook_ran_" ++ "h4") =
      some (if "h4" ∈ ["h1"] then "true" else "false") :=
  C4_hook_ran_flags.1 Ctx.empty ["h1", "h4"] ["h1"] "h4" (by decide)

def hookC5 : Hook := { key := "h", command := ["c"], needs := ["nonexistent_key"] }

/-- C5: empty `needs` is trivially satisfied; non-empty `needs` is satisfied
iff every key resolves to a node of the combined list that is enabled and
recursively satisfied; an unknown key makes the node unsatisfied, which the
scheduler reports as a `FalseConditional` skip, never a hard error. -/
theorem C5_needs_satisfaction :
    (∀ (fuel : Nat) (items : List Needy) (data : Ctx),
        is_satisfied fuel [] items data = true) ∧
    (∀ (fuel : Nat) (needs : List String) (items : List Needy) (data : Ctx),
        is_satisfied (fuel + 1) needs items data =
          needs.all fun key =>
            match items.find? (fun it => it.key == key) with
            | some item => item.isEnabled data && is_satisfied fuel item.needsOf items data
            | none => false) ∧
    (∀ (fuel : Nat) (key : String) (needs : List String) (items : List Needy) (data : Ctx),
        items.find? (fun it => it.key == key) = none → key ∈ needs →
        is_satisfied fuel needs items data = false) ∧
    (run_hooks_stream 1 [hookC5] [] Ctx.empty renderVar execAllOk none cmdOk =
      .ok [.HookStarted "h",
           .HookDone { hook := hookC5, kind := .Skipped .FalseConditional }]) := by
  refine ⟨?_, ?_, ?_, by decide⟩
  · intro fuel items data
    cases fuel <;> rfl
  · intro fuel needs items data
    rfl
  · intro fuel key needs items data hfind hmem
    cases fuel with
    | zero =>
      simp only [is_satisfied]
      rw [List.all_eq_false]
      exact ⟨key, hmem, by simp [hfind]⟩
    | succ f =>
      simp only [is_satisfied]
      rw [List.all_eq_false]
      exact ⟨key, hmem, by simp [hfind]⟩

/-- C5, witness: the unknown-key clause applied to a one-hook node list and
the key `nonexistent_key`, which no slot or hook declares. -/
theorem C5_witness :
    is_satisfied 1 ["nonexistent_key"] [Needy.hook hookC5] Ctx.empty = false :=
  C5_needs_satisfaction.2.2.1 1 "nonexistent_key" ["nonexistent_key"] [Needy.hook hookC5]
    Ctx.empty (by decide) (by decide)

def hookC6 : Hook := { key := "h", command := ["c"], optional := some { default := false } }

/-- C6: a hook with `optional` set takes the caller's boolean override for
its key when one is supplied in the run's data map and `optional.default`
otherwise; a hook without `optional` is always enabled; and a hook with
`optional.default = false` and no override is reported
`Skipped(UserDisabled)`. -/
theorem C6_hook_enablement :
    (∀ (h : Hook) (data : Ctx) (opt : HookConfigOptional), h.optional = some opt →
        data.get h.key = none → h.is_enabled data = opt.default) ∧
    (∀ (h : Hook) (data : Ctx) (opt : HookConfigOptional) (b : Bool), h.optional = some opt →
        data.get h.key = some (if b then "true" else "false") → h.is_enabled data = b) ∧
    (∀ (h : Hook) (data : Ctx), h.optional = none → h.is_enabled data = true) ∧
    (run_hooks_stream 1 [hookC6] [] Ctx.empty renderVar execAllOk none cmdOk =
      .ok [.HookStarted "h",
           .HookDone { hook := hookC6, kind := .Skipped .UserDisabled }]) := by
  refine ⟨?_, ?_, ?_, by decide⟩
  · intro h data opt hopt hdata
    simp [Hook.is_enabled, hopt, hdata]
  · intro h data opt b hopt hdata
    cases b <;> simp [Hook.is_enabled, hopt, hdata, parseBool]
  · intro h data hopt
    simp [Hook.is_enabled, hopt]

/-- C6, witness: the no-override clause applied to the concrete optional
hook, whose default is off. -/
theorem C6_witness : hookC6.is_enabled Ctx.empty = false :=
  C6_hook_enablement.1 hookC6 Ctx.empty { default := false } (by rfl) (by rfl)

def slotC7 : Slot := { key := "k" }

def hookC7 (ifE : Option String) : Hook :=
  { key := "h", command := ["c"], if_ := ifE, needs := ["k"] }

/-- C7: a slot is enabled iff its current context value (empty when absent)
is non-empty, not `"0"`, and not case-insensitively `"false"`; a hook whose
`needs` names such a disabled slot is skipped whatever its `if` guard is. -/
theorem C7_slot_enablement :
    (∀ (s : Slot) (data : Ctx), s.is_enabled data = true ↔
        ((data.get s.key).getD "" ≠ "" ∧ (data.get s.key).getD "" ≠ "0" ∧
          rustToLower ((data.get s.key).getD "") ≠ "false")) ∧
    (∀ (s : Slot) (data : Ctx), data.get s.key = none → s.is_enabled data = false) ∧
    (∀ (ifE : Option String) (v : String) (fuel : Nat),
        v = "" ∨ v = "0" ∨ rustToLower v = "false" →
        run_hooks_stream fuel [hookC7 ifE] [slotC7] (Ctx.single "k" v) renderVar execAllOk
          none cmdOk =
          .ok [.HookStarted "h",
               .HookDone { hook := hookC7 ifE, kind := .Skipped .FalseConditional }]) := by
  refine ⟨?_, ?_, ?_⟩
  · intro s data
    simp [Slot.is_enabled, and_assoc]
  · intro s data hdata
    simp [Slot.is_enabled, hdata]
  · intro ifE v fuel hv
    have hget : (Ctx.single "k" v).get "k" = some v := rfl
    have hslot : slotC7.is_enabled (Ctx.single "k" v) = false := by
      rcases hv with hv | hv | hv
      · subst hv; decide
      · subst hv; decide
      · simp [Slot.is_enabled, slotC7, Ctx.get, Ctx.single, Ctx.insert, hv]
    have hkeq : Needy.key (Needy.slot slotC7) = "k" := rfl
    have hE : Needy.isEnabled (Needy.slot slotC7) (Ctx.single "k" v) = false := hslot
    have hsat : is_satisfied fuel ["k"] [Needy.slot slotC7, Needy.hook (hookC7 ifE)]
        (Ctx.single "k" v) = false := by
      cases fuel <;> simp [is_satisfied, List.find?, hkeq, hE]
    have hsat' : (hookC7 ifE).is_satisfied fuel
        [Needy.slot slotC7, Needy.hook (hookC7 ifE)] (Ctx.single "k" v) = false := hsat
    have hen : (hookC7 ifE).is_enabled (Ctx.single "k" v) = true := by
      simp [Hook.is_enabled, hookC7]
    have hcl : classify fuel [Needy.slot slotC7, Needy.hook (hookC7 ifE)]
        (Ctx.single "k" v) [hookC7 ifE] =
        ([(hookC7 ifE, SkipReason.FalseConditional)], []) := by
      simp [classify, hen, hsat']
    unfold run_hooks_stream
    simp only [List.map_cons, List.map_nil, List.cons_append, List.nil_append]
    rw [hcl]
    simp [templateHooks, setupCommands, skipEvents, runQueued, hookC7]

/-- C7, witness: the needs-a-disabled-slot clause applied to a hook guarded
by `if = "true"` and a slot whose value is `"0"`. -/
theorem C7_witness :
    run_hooks_stream 1 [hookC7 (some "true")] [slotC7] (Ctx.single "k" "0") renderVar
      execAllOk none cmdOk =
      .ok [.HookStarted "h",
           .HookDone { hook := hookC7 (some "true"), kind := .Skipped .FalseConditional }] :=
  C7_slot_enablement.2.2 (some "true") "0" 1 (by decide)

def hookC8 : Hook := { key := "h", command := ["c"], if_ := some "maybe" }

/-- C8, counterexample: a guard that renders to `"maybe"` yields
`NotBoolean` carrying the boolean parser's fixed error message, not the
rendered text `"maybe"`. -/
theorem C8_counterexample :
    hookC8.evaluate_conditional renderVar Ctx.empty =
      .error (.NotBoolean parseBoolErrorMsg) ∧
    renderVar "maybe" Ctx.empty = .ok "maybe" ∧
    parseBoolErrorMsg ≠ "maybe" := by
  decide

/-- C8, amended: `evaluate_conditional` returns `Ok(true)` for an absent
guard; otherwise renders the guard (a render error becomes
`InvalidTemplate`), trims, and parses the trimmed text as a case-sensitive
boolean literal — any other trimmed text yields `NotBoolean` carrying the
underlying boolean parser's error message (a fixed string), not the
rendered text. -/
theorem C8_conditional_evaluation :
    (∀ (render : Render) (h : Hook) (ctx : Ctx), h.if_ = none →
        h.evaluate_conditional render ctx = .ok true) ∧
    (∀ (render : Render) (h : Hook) (ctx : Ctx) (c e : String), h.if_ = some c →
        render c ctx = .error e →
        h.evaluate_conditional render ctx = .error (.InvalidTemplate e)) ∧
    (∀ (render : Render) (h : Hook) (ctx : Ctx) (c s : String), h.if_ = some c →
        render c ctx = .ok s → rustTrim s = "true" →
        h.evaluate_conditional render ctx = .ok true) ∧
    (∀ (render : Render) (h : Hook) (ctx : Ctx) (c s : String), h.if_ = some c →
        render c ctx = .ok s → rustTrim s = "false" →
        h.evaluate_conditional render ctx = .ok false) ∧
    (∀ (render : Render) (h : Hook) (ctx : Ctx) (c s : String), h.if_ = some c →
        render c ctx = .ok s → rustTrim s ≠ "true" → rustTrim s ≠ "false" →
        h.evaluate_conditional render ctx = .error (.NotBoolean parseBoolErrorMsg)) := by
  refine ⟨?_, ?_, ?_, ?_, ?_⟩
  · intro render h ctx hif
    simp [Hook.evaluate_conditional, hif]
  · intro render h ctx c e hif hr
    simp [Hook.evaluate_conditional, hif, hr]
  · intro render h ctx c s hif hr htrim
    simp [Hook.evaluate_conditional, hif, hr, htrim, parseBool]
  · intro render h ctx c s hif hr htrim
    simp [Hook.evaluate_conditional, hif, hr, htrim, parseBool]
  · intro render h ctx c s hif hr ht hf
    simp [Hook.evaluate_conditional, hif, hr, parseBool, ht, hf]

/-- C8, witness: the `NotBoolean` clause applied to a concrete hook whose
guard renders to the non-boolean text `"yes"`. -/
theorem C8_witness :
    Hook.evaluate_conditional renderVar { key := "w", if_ := some "yes" } Ctx.empty =
      .error (.NotBoolean parseBoolErrorMsg) :=
  C8_conditional_evaluation.2.2.2.2 renderVar { key := "w", if_ := some "yes" } Ctx.empty
    "yes" "yes" rfl (by decide) (by decide) (by decide)

/-- C9: the execution context binds the reserved keys `_project_name` and
`_output_name` to the engine-computed names, overwriting any caller-supplied
entries of the same name, and preserves every other caller entry. -/
theorem C9_reserved_keys (data : Ctx) (projectName outputName : String) :
    (withReservedKeys data projectName outputName).get "_project_name" = some projectName ∧
    (withReservedKeys data projectName outputName).get "_output_name" = some outputName ∧
    ∀ k, k ≠ "_project_name" → k ≠ "_output_name" →
      (withReservedKeys data projectName outputName).get k = data.get k := by
  refine ⟨?_, ?_, ?_⟩
  · simp [withReservedKeys, Ctx.insert, Ctx.get]
  · simp [withReservedKeys, Ctx.insert, Ctx.get]
  · intro k h1 h2
    simp [withReservedKeys, Ctx.insert, Ctx.get, h1, h2]

/-- C9, witness: the preservation clause applied to a context holding a
caller entry, next to the overwrite clause's instantiation showing a
caller-supplied `_project_name` is replaced. -/
theorem C9_witness :
    (withReservedKeys (Ctx.single "_project_name" "evil") "proj" "out").get "_project_name" =
      some "proj" ∧
    (withReservedKeys (Ctx.single "caller_key" "v") "proj" "out").get "caller_key" =
      (Ctx.single "caller_key" "v").get "caller_key" :=
  ⟨(C9_reserved_keys (Ctx.single "_project_name" "evil") "proj" "out").1,
   (C9_reserved_keys (Ctx.single "caller_key" "v") "proj" "out").2.2 "caller_key"
     (by decide) (by decide)⟩

def hookC10a : Hook := { key := "h1", command := ["c"] }

def hookC10b : Hook := { key := "h2", command := ["c"], needs := ["h1"] }

def hookC10c : Hook := { key := "h1", command := ["c"], if_ := some "false" }

/-- A process oracle under which `h1`'s command exits with status 1 and
every other command (here `h2`'s) exits cleanly. -/
def execC10 : Exec := fun h =>
  if h.key = "h1" then .exited (some 1) "" "" else .exited (some 0) "" ""

/-- C10: enablement and needs-satisfaction are decided once, from the
initial data, before any command runs — every successful run's event list is
the phase-1 skip events (computed by `classify` alone, with no reference to
the process executor) followed by events among which no `UserDisabled` skip
occurs; and a queued hook still executes when a hook named in its `needs`
fails at runtime (scenario two) or is skipped at runtime by its own `if`
guard (scenario three). -/
theorem C10_static_classification :
    (∀ (fuel : Nat) (hooks : List Hook) (slots : List Slot) (data : Ctx) (render : Render)
        (exec : Exec) (cmdAsUser : Hook → Except String Unit) (events : List HookStreamResult),
        run_hooks_stream fuel hooks slots data render exec none cmdAsUser = .ok events →
        ∃ rest, events =
            skipEvents
              (classify fuel (slots.map Needy.slot ++ hooks.map Needy.hook) data hooks).1 ++
              rest ∧
          ∀ r, HookStreamResult.HookDone r ∈ rest →
            r.kind ≠ HookResultKind.Skipped SkipReason.UserDisabled) ∧
    (run_hooks_stream 1 [hookC10a, hookC10b] [] Ctx.empty renderVar execC10 none cmdOk =
      .ok [.HookStarted "h1",
           .HookDone { hook := hookC10a, kind := .Failed (.CommandExited 1 "" "") },
           .HookStarted "h2",
           .HookDone { hook := hookC10b, kind := .Completed "" "" }]) ∧
    (run_hooks_stream 1 [hookC10c, hookC10b] [] Ctx.empty renderVar execAllOk none cmdOk =
      .ok [.HookStarted "h1",
           .HookDone { hook := hookC10c, kind := .Skipped .FalseConditional },
           .HookStarted "h2",
           .HookDone { hook := hookC10b, kind := .Completed "" "" }]) := by
  refine ⟨?_, by decide, by decide⟩
  intro fuel hooks slots data render exec cmdAsUser events h
  obtain ⟨templated, -, hev⟩ :=
    run_hooks_stream_ok_decomp fuel hooks slots data render exec cmdAsUser events h
  exact ⟨runQueued render exec data (hooks.map Hook.key) [] templated, hev,
    fun r hr => runQueued_no_user_disabled render exec data (hooks.map Hook.key) templated
      [] r hr⟩

/-- C10, witness: the decomposition clause applied to the concrete run in
which `h2`'s needs-dependency `h1` fails at runtime. -/
theorem C10_witness :
    ∃ rest,
      ([.HookStarted "h1",
        .HookDone { hook := hookC10a, kind := .Failed (.CommandExited 1 "" "") },
        .HookStarted "h2",
        .HookDone { hook := hookC10b, kind := .Completed "" "" }] :
          List HookStreamResult) =
        skipEvents
          (classify 1 (List.map Needy.slot [] ++ List.map Needy.hook [hookC10a, hookC10b])
            Ctx.empty [hookC10a, hookC10b]).1 ++ rest ∧
      ∀ r, HookStreamResult.HookDone r ∈ rest →
        r.kind ≠ HookResultKind.Skipped SkipReason.UserDisabled :=
  C10_static_classification.1 1 [hookC10a, hookC10b] [] Ctx.empty renderVar execC10 cmdOk _
    (by decide)

end Spackle

